import Mathlib

/-!
Verification of the PDF-manual extraction pipeline (`manual_extractor.py`).

Python strings are modelled as `List Char`, byte strings as `List Nat`,
the filesystem as an association list from paths to contents, and the
external collaborators (HTTP transport, PDF parser, language classifier)
as black-box function parameters, following the spec's component
boundaries.  Fallible operations return `Except PipelineError`.
-/

namespace ManualExtractor

/-- Convert a Lean string literal to the `List Char` representation used
for Python strings throughout this development. -/
def toL (s : String) : List Char := s.data

/-- The literal substring `".pdf"` searched for by `process_url`. -/
def pdfL : List Char := toL ".pdf"

/-- Python `s.find(pat)` helper: the least index at which `pat` occurs in
`s` (as `some n`), or `none`.  Mirrors CPython's leftmost-match search. -/
def strFindAux (pat : List Char) : List Char → Option Nat
  | [] => if pat.isPrefixOf ([] : List Char) then some 0 else none
  | c :: rest =>
    if pat.isPrefixOf (c :: rest) then some 0
    else (strFindAux pat rest).map (fun n => n + 1)

/-- Python `s.find(pat)`: index of the first occurrence, `-1` if absent. -/
def pyFind (s pat : List Char) : Int :=
  match strFindAux pat s with
  | some n => (n : Int)
  | none => -1

/-- Python slice `s[:k]` for an integer stop `k`: a nonnegative stop takes
the first `k` characters (clamped to the length); a negative stop counts
from the end, clamped below at `0`. -/
def pySliceTo (s : List Char) (k : Int) : List Char :=
  if 0 ≤ k then s.take k.toNat
  else s.take ((s.length : Int) + k).toNat

/-- `PDFProcessor.process_url` (manual_extractor.py lines 40-47):
`idx = url.find(".pdf"); return url[:idx + len(".pdf")]`. -/
def process_url (url : List Char) : List Char :=
  let idx := pyFind url pdfL
  pySliceTo url (idx + 4)

/-! ### Filesystem, transport and error model -/

/-- File paths, modelled like other Python strings. -/
abbrev Path := List Char

/-- Byte strings (Python `bytes`), modelled as lists of byte values. -/
abbrev Bytes := List Nat

/-- The filesystem visible to the processor: an association of paths to
file contents (most recent write first). -/
structure FS where
  files : List (Path × Bytes)
deriving Repr, DecidableEq

/-- `os.path.exists`. -/
def fsExists (fs : FS) (p : Path) : Bool :=
  fs.files.any (fun e => e.1 == p)

/-- `open(p, 'wb')` followed by writing `c`: the file at `p` now holds
exactly `c`. -/
def fsWrite (fs : FS) (p : Path) (c : Bytes) : FS :=
  ⟨(p, c) :: fs.files.filter (fun e => ! (e.1 == p))⟩

/-- Reading the file at `p`, `none` when no such file exists. -/
def fsRead (fs : FS) (p : Path) : Option Bytes :=
  (fs.files.find? (fun e => e.1 == p)).map (fun e => e.2)

/-- Validation-error field markers reported by pydantic. -/
inductive VField where
  | urlField
  | languageField
deriving Repr, DecidableEq

/-- The spec's error taxonomy (§7); every stage failure is fatal and
propagates. -/
inductive PipelineError where
  | transport
  | extraction
  | classification
  | validation (fields : List VField)
  | io
deriving Repr, DecidableEq

/-- An HTTP response as `requests.get` returns it: a status code and a
body (`response.content`). -/
structure Response where
  status : Nat
  content : Bytes
deriving Repr, DecidableEq

/-- `url.split("/")[-1]`: the final path segment after the last `/`
(the whole string when no `/` occurs). -/
def lastSegment (s : List Char) : List Char :=
  s.foldl (fun acc c => if c == '/' then [] else acc ++ [c]) []

/-- `os.path.join(d, f)` for a directory path and a relative filename. -/
def pathJoin (d f : Path) : Path := d ++ toL "/" ++ f

/-- Result of a `download_pdf` call: the returned local path, the
filesystem afterwards, and how many network accesses were performed. -/
structure DLResult where
  path : Path
  fs : FS
  netCalls : Nat
deriving Repr, DecidableEq

/-- `PDFProcessor.download_pdf` (manual_extractor.py lines 49-61):
derive the filename from the URL's last path segment; if a file already
exists at the target path return it, otherwise perform one network fetch
(`requests.get`, which can fail with a transport error) and write the
response body verbatim — note the code never inspects `response.status`. -/
def download_pdf (net : Path → Except PipelineError Response) (pdf_dir : Path)
    (fs : FS) (url : Path) : Except PipelineError DLResult :=
  let filename := lastSegment url
  let filepath := pathJoin pdf_dir filename
  if fsExists fs filepath then .ok ⟨filepath, fs, 0⟩
  else
    match net url with
    | .error e => .error e
    | .ok response => .ok ⟨filepath, fsWrite fs filepath response.content, 1⟩

/-! ### Text extraction, classification and the record model -/

/-- The loop body of `extract_text`: `text = ""` then
`for page in doc: text += page.get_text()`. -/
def concatPages (pages : List (List Char)) : List Char :=
  pages.foldl (fun text p => text ++ p) []

/-- `PDFProcessor.extract_text` (manual_extractor.py lines 63-73): open the
file at `filepath` as a paginated document (`fitz.open`, a black box taking
the file's bytes to its list of page texts, which can fail with an
extraction error) and concatenate all page texts in stored order. -/
def extract_text (parsePdf : Bytes → Except PipelineError (List (List Char)))
    (fs : FS) (filepath : Path) : Except PipelineError (List Char) :=
  match fsRead fs filepath with
  | none => .error .io
  | some content =>
    match parsePdf content with
    | .error e => .error e
    | .ok pages => .ok (concatPages pages)

/-- The `Literal["de", "en"]` constraint on the `language` field. -/
def validLanguage (l : List Char) : Bool :=
  l == toL "de" || l == toL "en"

/-- The host component of a URL after its scheme. -/
def hostPart (rest : List Char) : List Char :=
  rest.takeWhile (fun c => ! (c == '/'))

/-- Modelled from the spec: pydantic's `AnyHttpUrl` validator is an
external collaborator; the spec requires the `url` field to "parse as an
absolute HTTP(S) URL".  We model this as an `http://` or `https://` scheme
followed by a nonempty host. -/
def validHttpUrl (u : List Char) : Bool :=
  if (toL "http://").isPrefixOf u then hostPart (u.drop 7) != []
  else if (toL "https://").isPrefixOf u then hostPart (u.drop 8) != []
  else false

/-- The `PDFData` record (manual_extractor.py lines 14-20). -/
structure PDFData where
  id : Int
  url : Path
  text : List Char
  language : List Char
  extraction_date : List Char
deriving Repr, DecidableEq

/-- pydantic construction of `PDFData`: validates `url : AnyHttpUrl` and
`language : Literal["de", "en"]`, collecting one error marker per invalid
field; `extraction_date` defaults to the current wall-clock time string
`now` (`datetime.now().strftime`). -/
def mkPDFData (id : Int) (url text language now : List Char) :
    Except (List VField) PDFData :=
  match validHttpUrl url, validLanguage language with
  | true, true => .ok ⟨id, url, text, language, now⟩
  | true, false => .error [VField.languageField]
  | false, true => .error [VField.urlField]
  | false, false => .error [VField.urlField, VField.languageField]

/-! ### Pipeline driver -/

/-- The external collaborators of one run: HTTP transport, PDF parser,
language classifier (`langdetect.detect`, which can fail with a
classification error), and the wall clock rendered as a timestamp
string. -/
structure Env where
  net : Path → Except PipelineError Response
  parsePdf : Bytes → Except PipelineError (List (List Char))
  detect : List Char → Except PipelineError (List Char)
  now : List Char

/-- The mutable state of a `PDFProcessor` instance: the cache-directory
filesystem and the accumulated `self.data` collection. -/
structure ProcState where
  fs : FS
  data : List PDFData
deriving Repr, DecidableEq

/-- One iteration of the loop body of `process_pdf` (manual_extractor.py
lines 86-97) for the line with ordinal `idx`: normalize, fetch, extract,
classify, build the record and append it to `self.data`.  Any stage
failure propagates. -/
def processLine (env : Env) (pdf_dir : Path) (st : ProcState) (idx : Nat)
    (line : List Char) : Except PipelineError ProcState :=
  let processed_url := process_url line
  match download_pdf env.net pdf_dir st.fs processed_url with
  | .error e => .error e
  | .ok dl =>
    match extract_text env.parsePdf dl.fs dl.path with
    | .error e => .error e
    | .ok text =>
      match env.detect text with
      | .error e => .error e
      | .ok language =>
        match mkPDFData (idx : Int) processed_url text language env.now with
        | .error fields => .error (.validation fields)
        | .ok r => .ok ⟨dl.fs, st.data ++ [r]⟩

/-- The loop of `process_pdf` from line ordinal `idx` onwards. -/
def process_pdf_from (env : Env) (pdf_dir : Path) :
    ProcState → Nat → List (List Char) → Except PipelineError ProcState
  | st, _, [] => .ok st
  | st, idx, l :: rest =>
    match processLine env pdf_dir st idx l with
    | .error e => .error e
    | .ok st' => process_pdf_from env pdf_dir st' (idx + 1) rest

/-- `PDFProcessor.process_pdf` (manual_extractor.py lines 83-97):
`for idx, url in enumerate(file): ...` over the input file's lines,
starting the ordinal at `0`. -/
def process_pdf (env : Env) (pdf_dir : Path) (st : ProcState)
    (lines : List (List Char)) : Except PipelineError ProcState :=
  process_pdf_from env pdf_dir st 0 lines

/-- `",\n"`-style separator joining used by `dumpJson`. -/
def joinSep (sep : List Char) : List (List Char) → List Char
  | [] => []
  | [x] => x
  | x :: y :: rest => x ++ sep ++ joinSep sep (y :: rest)

/-- `json.dump(..., indent=4)` of the record collection: the empty list
renders as `"[]"`; a nonempty list as a bracketed, indented,
comma-separated sequence of the records' renderings (the rendering of a
single record is a black-box parameter). -/
def dumpJson (renderRec : PDFData → List Char) (rs : List PDFData) : List Char :=
  match rs with
  | [] => toL "[]"
  | _ => toL "[\n    " ++ joinSep (toL ",\n    ") (rs.map renderRec) ++ toL "\n]"

/-- `PDFProcessor.save_to_json` (manual_extractor.py lines 99-104): first
run `process_pdf` in full; only if it returns normally is the output file
opened and the accumulated collection written.  The second component is
the output artifact: `none` when the output file was never opened or
written, `some data` when the collection `data` was serialized to it. -/
def save_to_json (env : Env) (pdf_dir : Path) (st : ProcState)
    (lines : List (List Char)) :
    Except PipelineError ProcState × Option (List PDFData) :=
  match process_pdf env pdf_dir st lines with
  | .error e => (.error e, none)
  | .ok st' => (.ok st', some st'.data)

/-! ### Concrete fixtures used by witnesses -/

/-- The default cache directory `./downloaded_pdfs`. -/
def exDir : Path := toL "./downloaded_pdfs"

/-- A concrete normalized manual URL. -/
def exUrl : Path := toL "https://example.com/manuals/device123.pdf"

/-- The local cache path derived from `exUrl`. -/
def exPath : Path := pathJoin exDir (lastSegment exUrl)

/-- A transport that answers every request with status 200 and a small
PDF-like body. -/
def exNet200 : Path → Except PipelineError Response :=
  fun _ => .ok ⟨200, [37, 80, 68, 70]⟩

/-- A transport that answers every request with status 404 and an HTML
error body. -/
def exNet404 : Path → Except PipelineError Response :=
  fun _ => .ok ⟨404, [60, 104, 62]⟩

/-- A transport whose every request raises a connection error. -/
def exNetDown : Path → Except PipelineError Response :=
  fun _ => .error .transport

/-- A cache directory already holding a file at `exPath`. -/
def exFsCached : FS := ⟨[(exPath, [37])]⟩

/-- A fixed wall-clock timestamp string. -/
def exNow : List Char := toL "01.01.2024 00:00:00"

/-- The body served by `exNet200`. -/
def exBody : Bytes := [37, 80, 68, 70]

/-- A parser taking every document to the three pages "A", "B", "C". -/
def exParseABC : Bytes → Except PipelineError (List (List Char)) :=
  fun _ => .ok [toL "A", toL "B", toL "C"]

/-- A parser taking every document to a zero-page document. -/
def exParseZero : Bytes → Except PipelineError (List (List Char)) :=
  fun _ => .ok []

/-- A parser taking every document to one page reading "Hello". -/
def exParseHello : Bytes → Except PipelineError (List (List Char)) :=
  fun _ => .ok [toL "Hello"]

/-- A classifier answering "en" on every text. -/
def exDetectEn : List Char → Except PipelineError (List Char) :=
  fun _ => .ok (toL "en")

/-- A fully successful environment. -/
def exEnv : Env := ⟨exNet200, exParseHello, exDetectEn, exNow⟩

/-- An environment whose transport is down. -/
def exEnvDown : Env := ⟨exNetDown, exParseHello, exDetectEn, exNow⟩

/-- A one-line input file. -/
def exLines1 : List (List Char) := [toL "https://example.com/manuals/a.pdf"]

/-- A three-line input file. -/
def exLines3 : List (List Char) :=
  [toL "https://example.com/manuals/a.pdf",
   toL "https://example.com/manuals/b.pdf",
   toL "https://example.com/manuals/c.pdf"]

/-- Cache paths derived from the three lines of `exLines3`. -/
def exPathA : Path := toL "./downloaded_pdfs/a.pdf"

/-- See `exPathA`. -/
def exPathB : Path := toL "./downloaded_pdfs/b.pdf"

/-- See `exPathA`. -/
def exPathC : Path := toL "./downloaded_pdfs/c.pdf"

/-- The record produced for the first line of `exLines3` under `exEnv`. -/
def exRecA : PDFData :=
  ⟨0, toL "https://example.com/manuals/a.pdf", toL "Hello", toL "en", exNow⟩

/-- The record produced for the second line of `exLines3` under `exEnv`. -/
def exRecB : PDFData :=
  ⟨1, toL "https://example.com/manuals/b.pdf", toL "Hello", toL "en", exNow⟩

/-- The record produced for the third line of `exLines3` under `exEnv`. -/
def exRecC : PDFData :=
  ⟨2, toL "https://example.com/manuals/c.pdf", toL "Hello", toL "en", exNow⟩

/-- The cache after downloading the single line of `exLines1`. -/
def exFs1 : FS := ⟨[(exPathA, exBody)]⟩

/-- The cache after downloading the three lines of `exLines3`. -/
def exFs3 : FS := ⟨[(exPathC, exBody), (exPathB, exBody), (exPathA, exBody)]⟩

/-- Processor state after one run over `exLines1`. -/
def exSt1 : ProcState := ⟨exFs1, [exRecA]⟩

/-- Processor state after two runs over `exLines1` on the same instance. -/
def exSt2 : ProcState := ⟨exFs1, [exRecA, exRecA]⟩

/-- Processor state after one run over `exLines3`. -/
def exSt3 : ProcState := ⟨exFs3, [exRecA, exRecB, exRecC]⟩

/- ### Facts about the string search -/

theorem isPrefixOf_self_append (pat t : List Char) :
    pat.isPrefixOf (pat ++ t) = true := by
  rw [List.isPrefixOf_iff_prefix]
  exact List.prefix_append pat t

theorem strFindAux_of_split (pat pre post : List Char) :
    (strFindAux pat (pre ++ pat ++ post)).isSome = true := by
  induction pre with
  | nil =>
    rw [List.nil_append]
    cases hs : pat ++ post with
    | nil =>
      have hp : pat = [] := by cases pat <;> simp_all
      subst hp
      simp [strFindAux, List.isPrefixOf]
    | cons c rest =>
      simp only [strFindAux]
      rw [← hs, isPrefixOf_self_append]
      simp
  | cons c pre ih =>
    simp only [List.cons_append, strFindAux]
    split
    · simp
    · simpa using ih

theorem strFindAux_spec (pat s : List Char) (n : Nat)
    (h : strFindAux pat s = some n) :
    pat.isPrefixOf (s.drop n) = true ∧
      ∀ m, m < n → pat.isPrefixOf (s.drop m) = false := by
  induction s generalizing n with
  | nil =>
    simp only [strFindAux] at h
    split at h
    · rename_i hp
      cases h
      refine ⟨by simpa using hp, ?_⟩
      intro m hm; omega
    · cases h
  | cons c rest ih =>
    simp only [strFindAux] at h
    split at h
    · rename_i hp
      cases h
      refine ⟨by simpa using hp, ?_⟩
      intro m hm; omega
    · rename_i hp
      rcases Option.map_eq_some'.mp h with ⟨n', hn', rfl⟩
      rcases ih n' hn' with ⟨h1, h2⟩
      refine ⟨by simpa using h1, ?_⟩
      intro m hm
      cases m with
      | zero => simpa using Bool.eq_false_iff.mpr hp
      | succ m' =>
        simpa using h2 m' (by omega)

theorem strFindAux_isSome_iff (pat s : List Char) :
    (strFindAux pat s).isSome = true ↔ ∃ pre post, s = pre ++ pat ++ post := by
  constructor
  · intro h
    rcases Option.isSome_iff_exists.mp h with ⟨n, hn⟩
    rcases strFindAux_spec pat s n hn with ⟨h1, _⟩
    rw [List.isPrefixOf_iff_prefix] at h1
    rcases h1 with ⟨t, ht⟩
    exact ⟨s.take n, t, by rw [List.append_assoc, ht, List.take_append_drop]⟩
  · rintro ⟨pre, post, rfl⟩
    exact strFindAux_of_split pat pre post

/-- C2: for every input line that contains the literal substring `".pdf"`,
`process_url` returns the prefix of the line that ends exactly at and
including the first occurrence of `".pdf"`: the marker occurs at the found
index `n` and at no earlier index, the result is `url.take n ++ ".pdf"`,
and the result is a prefix of the line. -/
theorem process_url_first_marker (url : List Char)
    (h : ∃ pre post, url = pre ++ pdfL ++ post) :
    ∃ n, strFindAux pdfL url = some n ∧
      pdfL.isPrefixOf (url.drop n) = true ∧
      (∀ m, m < n → pdfL.isPrefixOf (url.drop m) = false) ∧
      process_url url = url.take n ++ pdfL ∧
      url = process_url url ++ url.drop (n + 4) := by
  have hs := (strFindAux_isSome_iff pdfL url).mpr h
  rcases Option.isSome_iff_exists.mp hs with ⟨n, hn⟩
  rcases strFindAux_spec pdfL url n hn with ⟨h1, h2⟩
  have hfind : pyFind url pdfL = (n : Int) := by
    unfold pyFind
    rw [hn]
  have hpu : process_url url = url.take (n + 4) := by
    unfold process_url
    rw [hfind]
    unfold pySliceTo
    rw [if_pos (by omega)]
    congr 1
  have hpre := h1
  rw [List.isPrefixOf_iff_prefix] at hpre
  rcases hpre with ⟨t, ht⟩
  have h4 : url.take (n + 4) = url.take n ++ pdfL := by
    rw [List.take_add, ← ht]
    congr 1
  refine ⟨n, hn, h1, h2, by rw [hpu, h4], ?_⟩
  rw [hpu]
  exact (List.take_append_drop (n + 4) url).symm

/-- Witness for C2 on the concrete line `"a.pdfb.pdf"` (two occurrences of
the marker; the first one wins). -/
theorem process_url_first_marker_witness :
    ∃ n, strFindAux pdfL (toL "a.pdfb.pdf") = some n ∧
      pdfL.isPrefixOf ((toL "a.pdfb.pdf").drop n) = true ∧
      (∀ m, m < n → pdfL.isPrefixOf ((toL "a.pdfb.pdf").drop m) = false) ∧
      process_url (toL "a.pdfb.pdf") = (toL "a.pdfb.pdf").take n ++ pdfL ∧
      toL "a.pdfb.pdf" = process_url (toL "a.pdfb.pdf") ++ (toL "a.pdfb.pdf").drop (n + 4) :=
  process_url_first_marker (toL "a.pdfb.pdf") ⟨toL "a", toL "b.pdf", by decide⟩

/-- C3: for every input string not containing `".pdf"`, `process_url`
terminates normally and returns the slice computed from the `-1` sentinel,
namely the first three characters of the input (fewer when the input is
shorter). -/
theorem process_url_no_marker (url : List Char)
    (h : ¬ ∃ pre post, url = pre ++ pdfL ++ post) :
    process_url url = url.take 3 := by
  have hn : strFindAux pdfL url = none := by
    cases hfind : strFindAux pdfL url with
    | none => rfl
    | some n =>
      exact absurd ((strFindAux_isSome_iff pdfL url).mp (by rw [hfind]; rfl)) h
  unfold process_url pyFind
  rw [hn]
  show pySliceTo url (-1 + 4) = url.take 3
  have h3 : (-1 + 4 : Int) = 3 := by decide
  rw [h3]
  unfold pySliceTo
  rw [if_pos (by omega)]
  congr 1

/-- Witness for C3 on the concrete input `"hello"` (no marker): the result
is the first three characters `"hel"`. -/
theorem process_url_no_marker_witness :
    process_url (toL "hello") = (toL "hello").take 3 :=
  process_url_no_marker (toL "hello")
    (fun hex => by
      have h2 := (strFindAux_isSome_iff pdfL (toL "hello")).mpr hex
      exact absurd h2 (by decide))

/-! ### Facts about the cache/fetcher -/

theorem fsExists_fsWrite (fs : FS) (p : Path) (c : Bytes) :
    fsExists (fsWrite fs p c) p = true := by
  simp [fsExists, fsWrite]

/-- C1: fetch idempotence.  When the derived filename already names an
existing file in the cache directory, `download_pdf` performs no network
access and returns that file's path unchanged; and after any successful
call, a second call with the same URL performs no further network access
and returns the same path (so two calls perform at most one access in
total, the first call itself performing at most one). -/
theorem download_pdf_idempotent (net : Path → Except PipelineError Response)
    (pdf_dir : Path) (fs : FS) (url : Path) :
    (fsExists fs (pathJoin pdf_dir (lastSegment url)) = true →
      download_pdf net pdf_dir fs url =
        .ok ⟨pathJoin pdf_dir (lastSegment url), fs, 0⟩) ∧
    (∀ r1, download_pdf net pdf_dir fs url = .ok r1 →
      r1.path = pathJoin pdf_dir (lastSegment url) ∧
      r1.netCalls ≤ 1 ∧
      download_pdf net pdf_dir r1.fs url = .ok ⟨r1.path, r1.fs, 0⟩) := by
  constructor
  · intro h
    unfold download_pdf
    rw [if_pos h]
  · intro r1 h
    unfold download_pdf at h ⊢
    by_cases hex : fsExists fs (pathJoin pdf_dir (lastSegment url)) = true
    · rw [if_pos hex] at h
      cases h
      exact ⟨rfl, Nat.zero_le 1, by rw [if_pos hex]⟩
    · rw [if_neg hex] at h
      cases hnet : net url with
      | error e =>
        rw [hnet] at h
        cases h
      | ok resp =>
        rw [hnet] at h
        cases h
        exact ⟨rfl, Nat.le_refl 1,
          by rw [if_pos (fsExists_fsWrite fs _ resp.content)]⟩

/-- Witness for C1: a cache hit on `exFsCached` returns the cached path
with zero network accesses, and after a fresh download into an empty cache
the second call is a zero-access cache hit on the same path. -/
theorem download_pdf_idempotent_witness :
    download_pdf exNet200 exDir exFsCached exUrl =
      .ok ⟨exPath, exFsCached, 0⟩ ∧
    download_pdf exNet200 exDir (fsWrite ⟨[]⟩ exPath [37, 80, 68, 70]) exUrl =
      .ok ⟨exPath, fsWrite ⟨[]⟩ exPath [37, 80, 68, 70], 0⟩ := by
  constructor
  · exact (download_pdf_idempotent exNet200 exDir exFsCached exUrl).1 (by decide)
  · exact ((download_pdf_idempotent exNet200 exDir ⟨[]⟩ exUrl).2
      ⟨exPath, fsWrite ⟨[]⟩ exPath [37, 80, 68, 70], 1⟩ rfl).2.2

/-- Counterexample to C4 as stated: on a cache miss with an HTTP 404
response, `download_pdf` does not fail — it returns `.ok` with the derived
path and the 404 body is written to the cache directory. -/
theorem download_pdf_404_not_error :
    (∃ dl, download_pdf exNet404 exDir ⟨[]⟩ exUrl = .ok dl ∧
      dl.path = exPath ∧ fsRead dl.fs exPath = some [60, 104, 62]) ∧
    ¬ (∃ e, download_pdf exNet404 exDir ⟨[]⟩ exUrl = .error e) := by
  constructor
  · exact ⟨⟨exPath, fsWrite ⟨[]⟩ exPath [60, 104, 62], 1⟩, rfl, rfl, rfl⟩
  · rintro ⟨e, he⟩
    rw [show download_pdf exNet404 exDir ⟨[]⟩ exUrl =
      .ok ⟨exPath, fsWrite ⟨[]⟩ exPath [60, 104, 62], 1⟩ from rfl] at he
    cases he

/-- C4 amended: on a cache miss, only a transport-level failure of the
fetch itself (`requests.get` raising) aborts the call, propagating the
error with nothing written; when the fetch returns a response,
`download_pdf` writes the body verbatim to the cache and returns the
derived path regardless of the HTTP status code — non-success statuses
are not detected. -/
theorem download_pdf_status_blind (net : Path → Except PipelineError Response)
    (pdf_dir : Path) (fs : FS) (url : Path)
    (hmiss : fsExists fs (pathJoin pdf_dir (lastSegment url)) = false) :
    (∀ e, net url = .error e → download_pdf net pdf_dir fs url = .error e) ∧
    (∀ resp, net url = .ok resp →
      download_pdf net pdf_dir fs url =
        .ok ⟨pathJoin pdf_dir (lastSegment url),
          fsWrite fs (pathJoin pdf_dir (lastSegment url)) resp.content, 1⟩) := by
  have hne : ¬ fsExists fs (pathJoin pdf_dir (lastSegment url)) = true := by
    rw [hmiss]
    simp
  constructor
  · intro e he
    unfold download_pdf
    rw [if_neg hne, he]
  · intro resp hresp
    unfold download_pdf
    rw [if_neg hne, hresp]

/-- Witness for the amended C4: a 404 response is written to the empty
cache and its path returned; a connection failure propagates as a
transport error. -/
theorem download_pdf_status_blind_witness :
    download_pdf exNet404 exDir ⟨[]⟩ exUrl =
      .ok ⟨exPath, fsWrite ⟨[]⟩ exPath [60, 104, 62], 1⟩ ∧
    download_pdf exNetDown exDir ⟨[]⟩ exUrl = .error .transport := by
  constructor
  · exact (download_pdf_status_blind exNet404 exDir ⟨[]⟩ exUrl (by decide)).2
      ⟨404, [60, 104, 62]⟩ rfl
  · exact (download_pdf_status_blind exNetDown exDir ⟨[]⟩ exUrl (by decide)).1
      .transport rfl

/-! ### Facts about record validation and extraction -/

/-- C5: record validation gate.  Constructing a `PDFData` record with any
language code outside `{"de", "en"}` fails with a validation error
identifying the language field, while construction with `"en"`
(respectively `"de"`) and a syntactically valid absolute HTTP(S) URL
succeeds. -/
theorem mkPDFData_language_gate (i : Int) (url text now lang : List Char)
    (hurl : validHttpUrl url = true)
    (hde : lang ≠ toL "de") (hen : lang ≠ toL "en") :
    (∃ errs, mkPDFData i url text lang now = .error errs ∧
      VField.languageField ∈ errs) ∧
    mkPDFData i url text (toL "en") now = .ok ⟨i, url, text, toL "en", now⟩ ∧
    mkPDFData i url text (toL "de") now = .ok ⟨i, url, text, toL "de", now⟩ := by
  have hl : validLanguage lang = false := by
    unfold validLanguage
    rw [Bool.or_eq_false_iff]
    exact ⟨beq_eq_false_iff_ne.mpr hde, beq_eq_false_iff_ne.mpr hen⟩
  refine ⟨⟨[VField.languageField], ?_, List.mem_singleton.mpr rfl⟩, ?_, ?_⟩
  · simp only [mkPDFData, hurl, hl]
  · simp only [mkPDFData, hurl]
    rfl
  · simp only [mkPDFData, hurl]
    rfl

/-- Witness for C5 at the concrete language code `"fr"` and the URL
`exUrl`. -/
theorem mkPDFData_language_gate_witness :
    (∃ errs, mkPDFData 0 exUrl (toL "Bonjour") (toL "fr") exNow = .error errs ∧
      VField.languageField ∈ errs) ∧
    mkPDFData 0 exUrl (toL "Bonjour") (toL "en") exNow =
      .ok ⟨0, exUrl, toL "Bonjour", toL "en", exNow⟩ ∧
    mkPDFData 0 exUrl (toL "Bonjour") (toL "de") exNow =
      .ok ⟨0, exUrl, toL "Bonjour", toL "de", exNow⟩ :=
  mkPDFData_language_gate 0 exUrl (toL "Bonjour") exNow (toL "fr")
    (by decide) (by decide) (by decide)

theorem concatPages_aux (ps : List (List Char)) (acc : List Char) :
    ps.foldl (fun text p => text ++ p) acc = acc ++ ps.flatten := by
  induction ps generalizing acc with
  | nil => simp
  | cons p ps ih => simp [List.foldl, ih]

theorem concatPages_eq_join (ps : List (List Char)) :
    concatPages ps = ps.flatten := by
  simpa using concatPages_aux ps []

/-- C7: extraction order.  For a document whose pages in stored order have
texts `t1, ..., tn`, `extract_text` returns their concatenation in page
order with no separators inserted; for a zero-page document it returns the
empty string. -/
theorem extract_text_pages
    (parsePdf : Bytes → Except PipelineError (List (List Char)))
    (fs : FS) (filepath : Path) (content : Bytes) (pages : List (List Char))
    (hread : fsRead fs filepath = some content)
    (hparse : parsePdf content = .ok pages) :
    extract_text parsePdf fs filepath = .ok pages.flatten ∧
    (pages = [] → extract_text parsePdf fs filepath = .ok []) := by
  have hmain : extract_text parsePdf fs filepath = .ok pages.flatten := by
    simp only [extract_text, hread, hparse]
    rw [concatPages_eq_join]
  exact ⟨hmain, fun hp => by rw [hmain, hp]; rfl⟩

/-- Witness for C7: pages "A", "B", "C" extract to "ABC", and a zero-page
document extracts to the empty string. -/
theorem extract_text_pages_witness :
    extract_text exParseABC exFsCached exPath = .ok (toL "ABC") ∧
    extract_text exParseZero exFsCached exPath = .ok (toL "") := by
  constructor
  · exact (extract_text_pages exParseABC exFsCached exPath [37]
      [toL "A", toL "B", toL "C"] rfl rfl).1
  · exact (extract_text_pages exParseZero exFsCached exPath [37] [] rfl rfl).2 rfl

/-! ### Facts about the pipeline driver -/

theorem mkPDFData_ok_fields (i : Int) (url text lang now : List Char)
    (r : PDFData) (h : mkPDFData i url text lang now = .ok r) :
    r = ⟨i, url, text, lang, now⟩ := by
  cases hu : validHttpUrl url with
  | false =>
    cases hv : validLanguage lang with
    | false =>
      simp only [mkPDFData, hu, hv] at h
      cases h
    | true =>
      simp only [mkPDFData, hu, hv] at h
      cases h
  | true =>
    cases hv : validLanguage lang with
    | false =>
      simp only [mkPDFData, hu, hv] at h
      cases h
    | true =>
      simp only [mkPDFData, hu, hv] at h
      exact (Except.ok.inj h).symm

theorem processLine_ok (env : Env) (pdf_dir : Path) (st : ProcState)
    (idx : Nat) (line : List Char) (st' : ProcState)
    (h : processLine env pdf_dir st idx line = .ok st') :
    ∃ r, st'.data = st.data ++ [r] ∧ r.id = (idx : Int) := by
  simp only [processLine] at h
  cases h1 : download_pdf env.net pdf_dir st.fs (process_url line) with
  | error e =>
    simp only [h1] at h
    cases h
  | ok dl =>
    simp only [h1] at h
    cases h2 : extract_text env.parsePdf dl.fs dl.path with
    | error e =>
      simp only [h2] at h
      cases h
    | ok text =>
      simp only [h2] at h
      cases h3 : env.detect text with
      | error e =>
        simp only [h3] at h
        cases h
      | ok lang =>
        simp only [h3] at h
        cases h4 : mkPDFData (idx : Int) (process_url line) text lang env.now with
        | error fields =>
          simp only [h4] at h
          cases h
        | ok r =>
          simp only [h4] at h
          cases h
          exact ⟨r, rfl, by rw [mkPDFData_ok_fields _ _ _ _ _ r h4]⟩

theorem process_pdf_from_ok (env : Env) (pdf_dir : Path)
    (lines : List (List Char)) :
    ∀ st idx st', process_pdf_from env pdf_dir st idx lines = .ok st' →
      ∃ recs, st'.data = st.data ++ recs ∧
        recs.map PDFData.id = (List.range' idx lines.length).map Int.ofNat := by
  induction lines with
  | nil =>
    intro st idx st' h
    simp only [process_pdf_from] at h
    cases h
    exact ⟨[], by simp, by simp⟩
  | cons l rest ih =>
    intro st idx st' h
    simp only [process_pdf_from] at h
    cases h1 : processLine env pdf_dir st idx l with
    | error e =>
      rw [h1] at h
      cases h
    | ok st1 =>
      rw [h1] at h
      rcases processLine_ok env pdf_dir st idx l st1 h1 with ⟨r, hd, hid⟩
      rcases ih st1 (idx + 1) st' h with ⟨recs, hd2, hm⟩
      refine ⟨r :: recs, ?_, ?_⟩
      · rw [hd2, hd, List.append_assoc]
        rfl
      · rw [List.length_cons, List.range'_succ, List.map_cons, List.map_cons,
          hm, hid]
        rfl

theorem save_to_json_ok_elim (env : Env) (pdf_dir : Path) (st : ProcState)
    (lines : List (List Char)) (st' : ProcState) (out : List PDFData)
    (h : save_to_json env pdf_dir st lines = (.ok st', some out)) :
    process_pdf env pdf_dir st lines = .ok st' ∧ out = st'.data := by
  unfold save_to_json at h
  cases hq : process_pdf env pdf_dir st lines with
  | error e =>
    rw [hq] at h
    simp at h
  | ok stA =>
    rw [hq] at h
    simp only [Prod.mk.injEq, Except.ok.injEq, Option.some.injEq] at h
    obtain ⟨h1, h2⟩ := h
    subst h1
    exact ⟨rfl, h2.symm⟩

/-- C6: id assignment invariant.  For a successful run started on a fresh
processor (empty `self.data`), the produced records carry ids equal to the
zero-based ordinal positions of their source lines, in input line order,
and the ids are unique within the run. -/
theorem process_pdf_ids (env : Env) (pdf_dir : Path) (fs : FS)
    (lines : List (List Char)) (st' : ProcState)
    (h : process_pdf env pdf_dir ⟨fs, []⟩ lines = .ok st') :
    st'.data.map PDFData.id = (List.range lines.length).map Int.ofNat ∧
    (st'.data.map PDFData.id).Nodup := by
  rcases process_pdf_from_ok env pdf_dir lines ⟨fs, []⟩ 0 st' h with ⟨recs, hd, hm⟩
  have hdata : st'.data = recs := by simpa using hd
  have hids : st'.data.map PDFData.id = (List.range lines.length).map Int.ofNat := by
    rw [hdata, hm, List.range_eq_range']
  refine ⟨hids, ?_⟩
  rw [hids]
  exact (List.nodup_range lines.length).map (fun a b hab => Int.ofNat_inj.mp hab)

/-- Witness for C6: the three-line input `exLines3` produces ids
`0, 1, 2` in file order, with no duplicates. -/
theorem process_pdf_ids_witness :
    exSt3.data.map PDFData.id = (List.range exLines3.length).map Int.ofNat ∧
    (exSt3.data.map PDFData.id).Nodup :=
  process_pdf_ids exEnv exDir ⟨[]⟩ exLines3 exSt3 rfl

/-- C8: no partial output on failure.  If any stage fails for any line,
the error propagates out of `save_to_json` uncaught and the output JSON
file is never opened or written (the output artifact is `none`), no matter
how many records were accumulated for earlier lines. -/
theorem save_to_json_no_partial_output (env : Env) (pdf_dir : Path)
    (st : ProcState) (lines : List (List Char)) (e : PipelineError)
    (h : process_pdf env pdf_dir st lines = .error e) :
    save_to_json env pdf_dir st lines = (.error e, none) := by
  unfold save_to_json
  rw [h]

/-- Witness for C8: with the transport down, the one-line run aborts with
a transport error and no output artifact is produced. -/
theorem save_to_json_no_partial_output_witness :
    save_to_json exEnvDown exDir ⟨⟨[]⟩, []⟩ exLines1 = (.error .transport, none) :=
  save_to_json_no_partial_output exEnvDown exDir ⟨⟨[]⟩, []⟩ exLines1 .transport rfl

/-- C9: calling `save_to_json` twice on the same processor instance with
the same `n`-line input re-processes every line and appends to the
existing in-memory collection without clearing it: the second output
extends the first by `n` fresh records with ids `0..n-1` again, contains
`2n` records in total, and every id in `0..n-1` appears exactly twice. -/
theorem save_to_json_twice_duplicates (env : Env) (pdf_dir : Path) (fs : FS)
    (lines : List (List Char)) (st1 st2 : ProcState)
    (out1 out2 : List PDFData)
    (h1 : save_to_json env pdf_dir ⟨fs, []⟩ lines = (.ok st1, some out1))
    (h2 : save_to_json env pdf_dir st1 lines = (.ok st2, some out2)) :
    (∃ recs2, out2 = out1 ++ recs2 ∧
      recs2.map PDFData.id = (List.range lines.length).map Int.ofNat) ∧
    out2.length = 2 * lines.length ∧
    (∀ k, k < lines.length →
      (out2.map PDFData.id).count (Int.ofNat k) = 2) := by
  rcases save_to_json_ok_elim env pdf_dir ⟨fs, []⟩ lines st1 out1 h1 with ⟨hp1, ho1⟩
  rcases save_to_json_ok_elim env pdf_dir st1 lines st2 out2 h2 with ⟨hp2, ho2⟩
  rcases process_pdf_from_ok env pdf_dir lines ⟨fs, []⟩ 0 st1 hp1 with ⟨recs1, hd1, hm1⟩
  rcases process_pdf_from_ok env pdf_dir lines st1 0 st2 hp2 with ⟨recs2, hd2, hm2⟩
  have hrecs1 : st1.data = recs1 := by simpa using hd1
  have hout1 : out1 = recs1 := by rw [ho1, hrecs1]
  have hout2 : out2 = recs1 ++ recs2 := by rw [ho2, hd2, hrecs1]
  have hm1' : recs1.map PDFData.id = (List.range lines.length).map Int.ofNat := by
    rw [hm1, List.range_eq_range']
  have hm2' : recs2.map PDFData.id = (List.range lines.length).map Int.ofNat := by
    rw [hm2, List.range_eq_range']
  have hlen1 : recs1.length = lines.length := by
    have := congrArg List.length hm1'
    simpa using this
  have hlen2 : recs2.length = lines.length := by
    have := congrArg List.length hm2'
    simpa using this
  refine ⟨⟨recs2, by rw [hout2, hout1], hm2'⟩, ?_, ?_⟩
  · rw [hout2, List.length_append, hlen1, hlen2]
    omega
  · intro k hk
    have hinj : Function.Injective Int.ofNat := fun a b hab => Int.ofNat_inj.mp hab
    have hcount : ((List.range lines.length).map Int.ofNat).count (Int.ofNat k) = 1 := by
      rw [List.count_map_of_injective _ _ hinj]
      exact List.count_eq_one_of_mem (List.nodup_range lines.length)
        (List.mem_range.mpr hk)
    rw [hout2, List.map_append, List.count_append, hm1', hm2', hcount]

/-- Witness for C9: running twice over the one-line input `exLines1`
doubles the collection — the output holds two records, both with id 0. -/
theorem save_to_json_twice_duplicates_witness :
    (∃ recs2, [exRecA, exRecA] = [exRecA] ++ recs2 ∧
      recs2.map PDFData.id = (List.range exLines1.length).map Int.ofNat) ∧
    ([exRecA, exRecA] : List PDFData).length = 2 * exLines1.length ∧
    (∀ k, k < exLines1.length →
      (([exRecA, exRecA] : List PDFData).map PDFData.id).count (Int.ofNat k) = 2) :=
  save_to_json_twice_duplicates exEnv exDir ⟨[]⟩ exLines1 exSt1 exSt2
    [exRecA] [exRecA, exRecA] rfl rfl

/-- C10: for an empty input file, `save_to_json` performs no fetch,
extraction or classification (its result does not depend on the
environment at all), succeeds, and writes the empty collection, whose
JSON rendering is exactly `"[]"`. -/
theorem save_to_json_empty_input (env env' : Env) (pdf_dir : Path) (fs : FS)
    (renderRec : PDFData → List Char) :
    save_to_json env pdf_dir ⟨fs, []⟩ [] = (.ok ⟨fs, []⟩, some []) ∧
    save_to_json env pdf_dir ⟨fs, []⟩ [] = save_to_json env' pdf_dir ⟨fs, []⟩ [] ∧
    dumpJson renderRec [] = toL "[]" :=
  ⟨rfl, rfl, rfl⟩

end ManualExtractor
